import Mathlib

/-!
# Role/permission authorization model of the academic-records backend

Shallow embedding of the role/permission subsystem:
* the durable store (`DB`) holds role and permission catalogs plus the
  principal-role assignments (`userRoles`) and role-permission grants
  (`rolePermissions`), mirroring the Prisma tables `Role`, `Permission`,
  `UserRole`, `RolePermission`;
* `roleService.*` queries from `src/modules/role/role.service.ts` and
  `permissionService.*` queries from the permission service are translated
  to list computations that mirror the Prisma `where` clauses (relation
  filters become joins through the related table);
* the Express guards `checkRole`, `checkAnyRole` (`src/middleware/role.ts`)
  and `checkPermission`, `checkAnyPermission` (permission middleware) are
  translated to functions parameterized by a fallible store query
  (`Except Unit Bool`), so the `try/catch` block of each guard becomes a
  `match` on the query's outcome.
-/

namespace EduBackend

/-- A row of the `Role` table: `{ id, name, description }` (timestamps
irrelevant to authorization are omitted). `name` is unique in the store. -/
structure Role where
  id : String
  name : String
  description : Option String
deriving Repr, DecidableEq

/-- A row of the `Permission` table: `{ id, name, description }`.
`name` is unique in the store. -/
structure Permission where
  id : String
  name : String
  description : Option String
deriving Repr, DecidableEq

/-- A row of the `UserRole` table: one principal-role assignment. -/
structure UserRole where
  userId : String
  roleId : String
deriving Repr, DecidableEq

/-- A row of the `RolePermission` table: one role-permission grant. -/
structure RolePermission where
  roleId : String
  permissionId : String
deriving Repr, DecidableEq

/-- The durable store consulted by the role and permission services. -/
structure DB where
  roles : List Role
  permissions : List Permission
  userRoles : List UserRole
  rolePermissions : List RolePermission
deriving Repr, DecidableEq

/-- Modelled from the spec: the store's unique-key constraints, which are
declared in the Prisma schema (not part of the service sources): `Role.name`
and `Permission.name` are `@unique` (the services call `findUnique` on them),
`Role.id` and `Permission.id` are primary keys, and the composite keys
`(userId, roleId)` on `UserRole` and `(roleId, permissionId)` on
`RolePermission` are unique (callers reference the generated selectors
`userId_roleId` and `roleId_permissionId`). -/
def DB.wf (db : DB) : Prop :=
  (db.roles.map Role.id).Nodup ∧ (db.roles.map Role.name).Nodup ∧
  (db.permissions.map Permission.id).Nodup ∧
  (db.permissions.map Permission.name).Nodup ∧
  (db.userRoles.map fun ur => (ur.userId, ur.roleId)).Nodup ∧
  (db.rolePermissions.map fun rp => (rp.roleId, rp.permissionId)).Nodup

instance (db : DB) : Decidable db.wf := by
  unfold DB.wf; infer_instance

/-- `roleService.getRoleByName`: `prisma.role.findUnique({ where: { name } })`. -/
def getRoleByName (db : DB) (name : String) : Option Role :=
  db.roles.find? fun r => r.name == name

/-- `permissionService.getPermissionByName`:
`prisma.permission.findUnique({ where: { name } })`. -/
def getPermissionByName (db : DB) (name : String) : Option Permission :=
  db.permissions.find? fun p => p.name == name

/-- `roleService.userHasRole`: `prisma.userRole.findFirst({ where: { userId,
role: { name: roleName } } })` is non-null.  The relation filter `role:
{ name: roleName }` joins through the `Role` table. -/
def userHasRole (db : DB) (userId roleName : String) : Bool :=
  db.userRoles.any fun ur =>
    ur.userId == userId &&
      db.roles.any fun r => r.id == ur.roleId && r.name == roleName

/-- `roleService.userHasAnyRole`: `prisma.userRole.findMany({ where: { userId,
role: { name: { in: roleNames } } } })` has length > 0. -/
def userHasAnyRole (db : DB) (userId : String) (roleNames : List String) : Bool :=
  decide (0 < (db.userRoles.filter fun ur =>
    ur.userId == userId &&
      db.roles.any fun r => r.id == ur.roleId && roleNames.contains r.name).length)

/-- The relation filter `role: { users: { some: { userId } } }` used by the
permission service on `rolePermission` rows: the grant's role exists and has
some assignment to the given principal. -/
def roleHasSomeUser (db : DB) (userId roleId : String) : Bool :=
  db.roles.any fun r =>
    r.id == roleId && db.userRoles.any fun ur =>
      ur.roleId == r.id && ur.userId == userId

/-- `permissionService.roleHasPermission`: `prisma.rolePermission.findFirst({
where: { roleId, permission: { name: permissionName } } })` is non-null. -/
def roleHasPermission (db : DB) (roleId permissionName : String) : Bool :=
  db.rolePermissions.any fun rp =>
    rp.roleId == roleId &&
      db.permissions.any fun p => p.id == rp.permissionId && p.name == permissionName

/-- `permissionService.userHasPermission`: `prisma.rolePermission.findFirst({
where: { role: { users: { some: { userId } } }, permission: { name } } })`
is non-null. -/
def userHasPermission (db : DB) (userId permissionName : String) : Bool :=
  db.rolePermissions.any fun rp =>
    roleHasSomeUser db userId rp.roleId &&
      db.permissions.any fun p => p.id == rp.permissionId && p.name == permissionName

/-- `permissionService.userHasAnyPermission`:
`prisma.rolePermission.findMany({ where: { role: { users: { some: { userId } } },
permission: { name: { in: permissionNames } } } })` has length > 0. -/
def userHasAnyPermission (db : DB) (userId : String)
    (permissionNames : List String) : Bool :=
  decide (0 < (db.rolePermissions.filter fun rp =>
    roleHasSomeUser db userId rp.roleId &&
      db.permissions.any fun p =>
        p.id == rp.permissionId && permissionNames.contains p.name).length)

/-- Prisma's `distinct: ['permissionId']`: keep the first row for each
distinct key, dropping later rows whose key was already seen. -/
def distinctByAux {α : Type} (key : α → String) (seen : List String) :
    List α → List α
  | [] => []
  | x :: xs =>
    if seen.contains (key x) then distinctByAux key seen xs
    else x :: distinctByAux key (key x :: seen) xs

/-- First-occurrence deduplication by key, as Prisma's `distinct` performs. -/
def distinctBy {α : Type} (key : α → String) (l : List α) : List α :=
  distinctByAux key [] l

/-- `permissionService.getUserPermissions`: `prisma.rolePermission.findMany({
where: { role: { users: { some: { userId } } } }, include: { permission: true },
distinct: ['permissionId'] })` mapped to the joined permission rows.  The
`include` join is the lookup of the grant's `permissionId` in the
`Permission` table. -/
def getUserPermissions (db : DB) (userId : String) : List Permission :=
  (distinctBy (fun rp => rp.permissionId)
      (db.rolePermissions.filter fun rp => roleHasSomeUser db userId rp.roleId)).filterMap
    fun rp => db.permissions.find? fun p => p.id == rp.permissionId

/-- `roleService.assignRoleToUser`: looks the role up by name and throws
`Role <name> not found` when absent; otherwise `prisma.userRole.create`.
The duplicate branch is modelled from the spec: the Prisma schema's unique
composite key on `(userId, roleId)` makes `create` throw a unique-constraint
error when the pair already exists (re-assignment is an error, not a no-op). -/
def assignRoleToUser (db : DB) (userId roleName : String) :
    Except String (DB × UserRole) :=
  match getRoleByName db roleName with
  | none => .error ("Role " ++ roleName ++ " not found")
  | some role =>
    if db.userRoles.any fun ur => ur.userId == userId && ur.roleId == role.id then
      .error "Unique constraint failed on the fields: (userId, roleId)"
    else
      let ur : UserRole := ⟨userId, role.id⟩
      .ok ({ db with userRoles := db.userRoles ++ [ur] }, ur)

/-- `roleService.removeRoleFromUser`: looks the role up by name and throws
`Role <name> not found` when absent; otherwise `prisma.userRole.deleteMany({
where: { userId, roleId } })` (no error when no assignment matches). -/
def removeRoleFromUser (db : DB) (userId roleName : String) : Except String DB :=
  match getRoleByName db roleName with
  | none => .error ("Role " ++ roleName ++ " not found")
  | some role =>
    .ok { db with
      userRoles := db.userRoles.filter fun ur =>
        !(ur.userId == userId && ur.roleId == role.id) }

/-- `permissionService.removePermissionFromRole`: looks the permission up by
name and throws `Permission <name> not found` when absent; otherwise
`prisma.rolePermission.deleteMany({ where: { roleId, permissionId } })`. -/
def removePermissionFromRole (db : DB) (roleId permissionName : String) :
    Except String DB :=
  match getPermissionByName db permissionName with
  | none => .error ("Permission " ++ permissionName ++ " not found")
  | some permission =>
    .ok { db with
      rolePermissions := db.rolePermissions.filter fun rp =>
        !(rp.roleId == roleId && rp.permissionId == permission.id) }

/-- The JSON body `{ success, error }` the guards send on denial. -/
structure ResBody where
  success : Bool
  error : String
deriving Repr, DecidableEq

/-- Outcome of a guard: either a response with a status code and body, or
fall-through to the protected handler (`next()`). -/
inductive GuardResult where
  | respond (status : Nat) (body : ResBody)
  | next
deriving Repr, DecidableEq

/-- `checkRole` (`src/middleware/role.ts`): 401 when no principal is resolved,
otherwise query `roleService.userHasRole`; 403 on a negative answer, `next()`
on a positive one, 500 when the query throws.  The store query is a parameter
`store : String → String → Except Unit Bool` so that the guard's behavior can
be stated for every store outcome, including failure. -/
def checkRole (requiredRole : String) (user : Option String)
    (store : String → String → Except Unit Bool) : GuardResult :=
  match user with
  | none => .respond 401 ⟨false, "Authentication required"⟩
  | some userId =>
    match store userId requiredRole with
    | .error _ => .respond 500 ⟨false, "Error checking user roles"⟩
    | .ok hasRole =>
      if !hasRole then
        .respond 403 ⟨false, "Access denied. Required role: " ++ requiredRole⟩
      else .next

/-- `checkAnyRole` (`src/middleware/role.ts`), with the store query as a
parameter. -/
def checkAnyRole (requiredRoles : List String) (user : Option String)
    (store : String → List String → Except Unit Bool) : GuardResult :=
  match user with
  | none => .respond 401 ⟨false, "Authentication required"⟩
  | some userId =>
    match store userId requiredRoles with
    | .error _ => .respond 500 ⟨false, "Error checking user roles"⟩
    | .ok hasAnyRole =>
      if !hasAnyRole then
        .respond 403 ⟨false, "Access denied. Required one of these roles: " ++
          String.intercalate ", " requiredRoles⟩
      else .next

/-- `checkPermission` (permission middleware): same shape as `checkRole` over
`permissionService.userHasPermission`. -/
def checkPermission (requiredPermission : String) (user : Option String)
    (store : String → String → Except Unit Bool) : GuardResult :=
  match user with
  | none => .respond 401 ⟨false, "Authentication required"⟩
  | some userId =>
    match store userId requiredPermission with
    | .error _ => .respond 500 ⟨false, "Error checking user permissions"⟩
    | .ok hasPermission =>
      if !hasPermission then
        .respond 403 ⟨false,
          "Access denied. Required permission: " ++ requiredPermission⟩
      else .next

/-- `checkAnyPermission` (permission middleware), with the store query as a
parameter. -/
def checkAnyPermission (requiredPermissions : List String) (user : Option String)
    (store : String → List String → Except Unit Bool) : GuardResult :=
  match user with
  | none => .respond 401 ⟨false, "Authentication required"⟩
  | some userId =>
    match store userId requiredPermissions with
    | .error _ => .respond 500 ⟨false, "Error checking user permissions"⟩
    | .ok hasAnyPermission =>
      if !hasAnyPermission then
        .respond 403 ⟨false, "Access denied. Required one of these permissions: " ++
          String.intercalate ", " requiredPermissions⟩
      else .next

/-- `checkRole` wired to a healthy store backed by `db`. -/
def runCheckRole (db : DB) (requiredRole : String) (user : Option String) :
    GuardResult :=
  checkRole requiredRole user fun userId rn => .ok (userHasRole db userId rn)

/-- `checkAnyRole` wired to a healthy store backed by `db`. -/
def runCheckAnyRole (db : DB) (requiredRoles : List String)
    (user : Option String) : GuardResult :=
  checkAnyRole requiredRoles user fun userId rns => .ok (userHasAnyRole db userId rns)

/-- `checkPermission` wired to a healthy store backed by `db`. -/
def runCheckPermission (db : DB) (requiredPermission : String)
    (user : Option String) : GuardResult :=
  checkPermission requiredPermission user fun userId pn =>
    .ok (userHasPermission db userId pn)

/-- `checkAnyPermission` wired to a healthy store backed by `db`. -/
def runCheckAnyPermission (db : DB) (requiredPermissions : List String)
    (user : Option String) : GuardResult :=
  checkAnyPermission requiredPermissions user fun userId pns =>
    .ok (userHasAnyPermission db userId pns)

/-- Outcome of `roleController.assignRoleToUser`
(`src/modules/role/role.controller.ts`): 201 with the created assignment on
success; any `Error` thrown by the service is caught and answered with
status 400 and the error's message. -/
inductive ControllerResult where
  | created (db : DB) (assignment : UserRole)
  | failure (status : Nat) (error : String)
deriving Repr, DecidableEq

/-- `roleController.assignRoleToUser`: `try` the service call; on success
respond 201; on a thrown `Error` respond 400 with `error.message`. -/
def roleControllerAssignRoleToUser (db : DB) (userId roleName : String) :
    ControllerResult :=
  match assignRoleToUser db userId roleName with
  | .ok (db', ur) => .created db' ur
  | .error msg => .failure 400 msg

/-- Concrete sample store with the bootstrap catalogs and no role
assignments: roles `student`, `teacher`; permissions `COURSE_READ` (granted
to both roles) and `COURSE_CREATE` (granted to `teacher`). -/
def seedDB : DB :=
  { roles := [⟨"role-1", "student", none⟩, ⟨"role-2", "teacher", none⟩],
    permissions := [⟨"perm-1", "COURSE_READ", none⟩,
      ⟨"perm-2", "COURSE_CREATE", none⟩],
    userRoles := [],
    rolePermissions := [⟨"role-1", "perm-1"⟩, ⟨"role-2", "perm-1"⟩,
      ⟨"role-2", "perm-2"⟩] }

/-- The sample store after principal `u1` has been assigned the `student`
role. -/
def sampleDB : DB := { seedDB with userRoles := [⟨"u1", "role-1"⟩] }

/-- A `findMany(...).length > 0` emptiness test is the same membership test
as `any`. -/
theorem length_pos_filter_eq_any {α : Type} (p : α → Bool) (l : List α) :
    decide (0 < (l.filter p).length) = l.any p := by
  rw [Bool.eq_iff_iff, decide_eq_true_iff, List.length_pos_iff_exists_mem,
    List.any_eq_true]
  constructor
  · rintro ⟨a, ha⟩
    exact ⟨a, (List.mem_filter.mp ha).1, (List.mem_filter.mp ha).2⟩
  · rintro ⟨a, ha, hpa⟩
    exact ⟨a, List.mem_filter.mpr ⟨ha, hpa⟩⟩

/-- C2: with no principal identifier resolved, each of the four guards
responds 401 with `{ success: false, error: "Authentication required" }`,
for every behavior of the backing store — so the response is issued before
any role-store or permission-store query. -/
theorem guards_unauthenticated_short_circuit
    (r p : String) (rs ps : List String)
    (q1 : String → String → Except Unit Bool)
    (q2 : String → List String → Except Unit Bool)
    (q3 : String → String → Except Unit Bool)
    (q4 : String → List String → Except Unit Bool) :
    checkRole r none q1 = .respond 401 ⟨false, "Authentication required"⟩ ∧
    checkAnyRole rs none q2 = .respond 401 ⟨false, "Authentication required"⟩ ∧
    checkPermission p none q3 = .respond 401 ⟨false, "Authentication required"⟩ ∧
    checkAnyPermission ps none q4 =
      .respond 401 ⟨false, "Authentication required"⟩ :=
  ⟨rfl, rfl, rfl, rfl⟩

/-- C8: an authenticated principal failing a single-role check receives 403
with `Access denied. Required role: <name>`; a store failure during any
check yields 500 with `Error checking user roles` (role guards) or
`Error checking user permissions` (permission guards), never 403. -/
theorem guard_deny_403_and_failure_500
    (r p : String) (rs ps : List String) (u : String)
    (q : String → String → Except Unit Bool)
    (qa : String → List String → Except Unit Bool)
    (qp : String → String → Except Unit Bool)
    (qap : String → List String → Except Unit Bool) :
    (q u r = .ok false →
      checkRole r (some u) q =
        .respond 403 ⟨false, "Access denied. Required role: " ++ r⟩) ∧
    (q u r = .error () →
      checkRole r (some u) q =
        .respond 500 ⟨false, "Error checking user roles"⟩) ∧
    (qa u rs = .error () →
      checkAnyRole rs (some u) qa =
        .respond 500 ⟨false, "Error checking user roles"⟩) ∧
    (qp u p = .error () →
      checkPermission p (some u) qp =
        .respond 500 ⟨false, "Error checking user permissions"⟩) ∧
    (qap u ps = .error () →
      checkAnyPermission ps (some u) qap =
        .respond 500 ⟨false, "Error checking user permissions"⟩) := by
  refine ⟨fun h => ?_, fun h => ?_, fun h => ?_, fun h => ?_, fun h => ?_⟩ <;>
    simp [checkRole, checkAnyRole, checkPermission, checkAnyPermission, h]

/-- Witness for C8 at concrete inputs: a denying store yields the 403
response and a failing store yields the 500 response. -/
theorem guard_deny_403_and_failure_500_witness :
    checkRole "admin" (some "u1") (fun _ _ => .ok false) =
      .respond 403 ⟨false, "Access denied. Required role: admin"⟩ ∧
    checkRole "admin" (some "u1") (fun _ _ => .error ()) =
      .respond 500 ⟨false, "Error checking user roles"⟩ ∧
    checkPermission "USER_READ" (some "u1") (fun _ _ => .error ()) =
      .respond 500 ⟨false, "Error checking user permissions"⟩ :=
  ⟨(guard_deny_403_and_failure_500 "admin" "USER_READ" [] [] "u1"
      (fun _ _ => .ok false) (fun _ _ => .ok false) (fun _ _ => .ok false)
      (fun _ _ => .ok false)).1 rfl,
   (guard_deny_403_and_failure_500 "admin" "USER_READ" [] [] "u1"
      (fun _ _ => .error ()) (fun _ _ => .ok false) (fun _ _ => .ok false)
      (fun _ _ => .ok false)).2.1 rfl,
   (guard_deny_403_and_failure_500 "admin" "USER_READ" [] [] "u1"
      (fun _ _ => .ok false) (fun _ _ => .ok false) (fun _ _ => .error ())
      (fun _ _ => .ok false)).2.2.2.1 rfl⟩

/-- C10: an any-of check with an empty requirement list denies:
`userHasAnyRole(P, [])` and `userHasAnyPermission(P, [])` are false, so
`checkAnyRole([])` and `checkAnyPermission([])` respond 403 for every
authenticated principal. -/
theorem anyOf_empty_denies (db : DB) (u : String) :
    userHasAnyRole db u [] = false ∧
    userHasAnyPermission db u [] = false ∧
    runCheckAnyRole db [] (some u) =
      .respond 403 ⟨false, "Access denied. Required one of these roles: "⟩ ∧
    runCheckAnyPermission db [] (some u) =
      .respond 403 ⟨false, "Access denied. Required one of these permissions: "⟩ := by
  have h1 : userHasAnyRole db u [] = false := by
    unfold userHasAnyRole
    rw [length_pos_filter_eq_any]
    simp
  have h2 : userHasAnyPermission db u [] = false := by
    unfold userHasAnyPermission
    rw [length_pos_filter_eq_any]
    simp
  refine ⟨h1, h2, ?_, ?_⟩
  · simp [runCheckAnyRole, checkAnyRole, h1, String.intercalate,
      String.append_empty]
  · simp [runCheckAnyPermission, checkAnyPermission, h2, String.intercalate,
      String.append_empty]

/-- C6: a two-element any-of check is the disjunction of the two single
checks, both for roles and for permissions. -/
theorem hasAnyRole_iff_or (db : DB) (u r1 r2 n1 n2 : String) :
    userHasAnyRole db u [r1, r2] = (userHasRole db u r1 || userHasRole db u r2) ∧
    userHasAnyPermission db u [n1, n2] =
      (userHasPermission db u n1 || userHasPermission db u n2) := by
  constructor
  · unfold userHasAnyRole userHasRole
    rw [length_pos_filter_eq_any, Bool.eq_iff_iff]
    simp only [List.any_eq_true, Bool.and_eq_true, beq_iff_eq, Bool.or_eq_true,
      List.contains, List.elem_iff, List.mem_cons, List.not_mem_nil, or_false]
    constructor
    · rintro ⟨ur, hur, hu, r, hr, hid, hname | hname⟩
      · exact Or.inl ⟨ur, hur, hu, r, hr, hid, hname⟩
      · exact Or.inr ⟨ur, hur, hu, r, hr, hid, hname⟩
    · rintro (⟨ur, hur, hu, r, hr, hid, hname⟩ | ⟨ur, hur, hu, r, hr, hid, hname⟩)
      · exact ⟨ur, hur, hu, r, hr, hid, Or.inl hname⟩
      · exact ⟨ur, hur, hu, r, hr, hid, Or.inr hname⟩
  · unfold userHasAnyPermission userHasPermission
    rw [length_pos_filter_eq_any, Bool.eq_iff_iff]
    simp only [List.any_eq_true, Bool.and_eq_true, beq_iff_eq, Bool.or_eq_true,
      List.contains, List.elem_iff, List.mem_cons, List.not_mem_nil, or_false]
    constructor
    · rintro ⟨rp, hrp, hrole, p, hp, hid, hname | hname⟩
      · exact Or.inl ⟨rp, hrp, hrole, p, hp, hid, hname⟩
      · exact Or.inr ⟨rp, hrp, hrole, p, hp, hid, hname⟩
    · rintro (⟨rp, hrp, hrole, p, hp, hid, hname⟩ | ⟨rp, hrp, hrole, p, hp, hid, hname⟩)
      · exact ⟨rp, hrp, hrole, p, hp, hid, Or.inl hname⟩
      · exact ⟨rp, hrp, hrole, p, hp, hid, Or.inr hname⟩

/-- C5: a principal with zero role assignments fails every role and
permission check, its effective permission set is empty, and the guards
answer an ordinary 403 Deny, not an error. -/
theorem zero_roles_denies (db : DB) (u : String)
    (h : ∀ ur ∈ db.userRoles, ur.userId ≠ u) (rn pn : String) :
    userHasRole db u rn = false ∧
    userHasPermission db u pn = false ∧
    getUserPermissions db u = [] ∧
    runCheckRole db rn (some u) =
      .respond 403 ⟨false, "Access denied. Required role: " ++ rn⟩ ∧
    runCheckPermission db pn (some u) =
      .respond 403 ⟨false, "Access denied. Required permission: " ++ pn⟩ := by
  have h1 : userHasRole db u rn = false := by
    rw [Bool.eq_false_iff]
    intro hc
    unfold userHasRole at hc
    rw [List.any_eq_true] at hc
    obtain ⟨ur, hur, hcond⟩ := hc
    rw [Bool.and_eq_true, beq_iff_eq] at hcond
    exact h ur hur hcond.1
  have hsome : ∀ rid, roleHasSomeUser db u rid = false := by
    intro rid
    rw [Bool.eq_false_iff]
    intro hc
    unfold roleHasSomeUser at hc
    rw [List.any_eq_true] at hc
    obtain ⟨r, _, hcond⟩ := hc
    rw [Bool.and_eq_true, List.any_eq_true] at hcond
    obtain ⟨_, ur, hur, hcond2⟩ := hcond
    rw [Bool.and_eq_true, beq_iff_eq, beq_iff_eq] at hcond2
    exact h ur hur hcond2.2
  have h2 : userHasPermission db u pn = false := by
    rw [Bool.eq_false_iff]
    intro hc
    unfold userHasPermission at hc
    rw [List.any_eq_true] at hc
    obtain ⟨rp, _, hcond⟩ := hc
    rw [Bool.and_eq_true, hsome rp.roleId] at hcond
    exact Bool.false_ne_true hcond.1
  have h3 : getUserPermissions db u = [] := by
    unfold getUserPermissions
    have hf : (db.rolePermissions.filter fun rp =>
        roleHasSomeUser db u rp.roleId) = [] := by
      rw [List.filter_eq_nil_iff]
      intro rp _
      rw [hsome rp.roleId]
      simp
    rw [hf]
    rfl
  exact ⟨h1, h2, h3, by simp [runCheckRole, checkRole, h1],
    by simp [runCheckPermission, checkPermission, h2]⟩

/-- Witness for C5: principal `u9` holds no assignment in the sample store,
so its role check is false and its effective permission set is empty. -/
theorem zero_roles_denies_witness :
    userHasRole sampleDB "u9" "student" = false ∧
    getUserPermissions sampleDB "u9" = [] :=
  ⟨(zero_roles_denies sampleDB "u9" (by decide) "student" "COURSE_READ").1,
   (zero_roles_denies sampleDB "u9" (by decide) "student" "COURSE_READ").2.2.1⟩

/-- Counterexample to C4 as stated: `STUDENT_MANAGE` names no permission in
the sample store, yet the permission guard answers the authenticated
principal `u1` with an ordinary 403 Deny — no lookup/configuration failure
is surfaced. -/
theorem unknown_permission_403_counterexample :
    (¬ ∃ p ∈ sampleDB.permissions, p.name = "STUDENT_MANAGE") ∧
    runCheckPermission sampleDB "STUDENT_MANAGE" (some "u1") =
      .respond 403
        ⟨false, "Access denied. Required permission: STUDENT_MANAGE"⟩ := by
  constructor
  · decide
  · decide

/-- C4 amended: a requirement naming an unknown permission or role is treated
as an ordinary Deny — the membership check returns false and the guard
responds 403 insufficient-privilege; no distinct failure class exists for
unknown names. -/
theorem unknown_requirement_denies (db : DB) (u n : String) :
    ((¬ ∃ p ∈ db.permissions, p.name = n) →
      userHasPermission db u n = false ∧
      runCheckPermission db n (some u) =
        .respond 403 ⟨false, "Access denied. Required permission: " ++ n⟩) ∧
    ((¬ ∃ r ∈ db.roles, r.name = n) →
      userHasRole db u n = false ∧
      runCheckRole db n (some u) =
        .respond 403 ⟨false, "Access denied. Required role: " ++ n⟩) := by
  constructor
  · intro h
    have h2 : userHasPermission db u n = false := by
      rw [Bool.eq_false_iff]
      intro hc
      unfold userHasPermission at hc
      rw [List.any_eq_true] at hc
      obtain ⟨rp, _, hcond⟩ := hc
      rw [Bool.and_eq_true, List.any_eq_true] at hcond
      obtain ⟨_, p, hp, hcond2⟩ := hcond
      rw [Bool.and_eq_true, beq_iff_eq, beq_iff_eq] at hcond2
      exact h ⟨p, hp, hcond2.2⟩
    exact ⟨h2, by simp [runCheckPermission, checkPermission, h2]⟩
  · intro h
    have h1 : userHasRole db u n = false := by
      rw [Bool.eq_false_iff]
      intro hc
      unfold userHasRole at hc
      rw [List.any_eq_true] at hc
      obtain ⟨ur, _, hcond⟩ := hc
      rw [Bool.and_eq_true, List.any_eq_true] at hcond
      obtain ⟨_, r, hr, hcond2⟩ := hcond
      rw [Bool.and_eq_true, beq_iff_eq, beq_iff_eq] at hcond2
      exact h ⟨r, hr, hcond2.2⟩
    exact ⟨h1, by simp [runCheckRole, checkRole, h1]⟩

/-- Witness for the amended C4 at concrete inputs: `STUDENT_MANAGE` and
`librarian` are unknown names, and the checks answer false. -/
theorem unknown_requirement_denies_witness :
    userHasPermission sampleDB "u1" "STUDENT_MANAGE" = false ∧
    userHasRole sampleDB "u1" "librarian" = false :=
  ⟨((unknown_requirement_denies sampleDB "u1" "STUDENT_MANAGE").1
      (by decide)).1,
   ((unknown_requirement_denies sampleDB "u1" "librarian").2 (by decide)).1⟩

/-- Counterexample to C3 as stated: assigning `student` to `u1` succeeds and
the repeated assignment fails, but the controller surfaces the conflict with
HTTP status 400 — not a 409-class response. -/
theorem assign_duplicate_responds_400 :
    roleControllerAssignRoleToUser seedDB "u1" "student" =
      .created sampleDB ⟨"u1", "role-1"⟩ ∧
    userHasRole sampleDB "u1" "student" = true ∧
    roleControllerAssignRoleToUser sampleDB "u1" "student" =
      .failure 400 "Unique constraint failed on the fields: (userId, roleId)" ∧
    (400 : Nat) ≠ 409 := by
  refine ⟨by decide, by decide, by decide, by decide⟩

/-- C3 amended: `assignRole` fails with `Role <name> not found` when the role
name is unknown; after a successful assignment `hasRole` is true; a second
assignment of the same pair fails with a unique-constraint (already-assigned)
error rather than silently merging, and the controller surfaces that error
as HTTP 400. -/
theorem assignRole_spec (db : DB) (u rn : String) :
    ((¬ ∃ r ∈ db.roles, r.name = rn) →
      assignRoleToUser db u rn = .error ("Role " ++ rn ++ " not found")) ∧
    (∀ db' ur, assignRoleToUser db u rn = .ok (db', ur) →
      userHasRole db' u rn = true ∧
      assignRoleToUser db' u rn =
        .error "Unique constraint failed on the fields: (userId, roleId)" ∧
      roleControllerAssignRoleToUser db' u rn =
        .failure 400 "Unique constraint failed on the fields: (userId, roleId)") := by
  constructor
  · intro h
    have hfind : getRoleByName db rn = none := by
      rw [getRoleByName, List.find?_eq_none]
      intro r hr
      rw [beq_iff_eq]
      exact fun hn => h ⟨r, hr, hn⟩
    unfold assignRoleToUser
    rw [hfind]
  · intro db' ur hok
    unfold assignRoleToUser at hok
    split at hok
    next hfind => exact absurd hok (by simp)
    next role hfind =>
      split at hok
      next hdup => exact absurd hok (by simp)
      next hdup =>
        simp only [Except.ok.injEq, Prod.mk.injEq] at hok
        obtain ⟨hdb, hur⟩ := hok
        subst hdb
        have hfind2 : db.roles.find? (fun r => r.name == rn) = some role := hfind
        have hrmem : role ∈ db.roles := List.mem_of_find?_eq_some hfind2
        have hrname : (role.name == rn) = true := by
          simpa using List.find?_some hfind2
        have hhas : userHasRole
            { db with userRoles := db.userRoles ++ [⟨u, role.id⟩] } u rn = true := by
          unfold userHasRole
          rw [List.any_eq_true]
          refine ⟨⟨u, role.id⟩, by simp, ?_⟩
          rw [Bool.and_eq_true, List.any_eq_true]
          exact ⟨by simp, role, hrmem, by simp [beq_iff_eq.mp hrname]⟩
        have hfind' : getRoleByName
            { db with userRoles := db.userRoles ++ [⟨u, role.id⟩] } rn =
              some role := hfind
        have hdup' : (({ db with userRoles := db.userRoles ++ [⟨u, role.id⟩] } :
            DB).userRoles.any fun x => x.userId == u && x.roleId == role.id) =
              true := by
          rw [List.any_eq_true]
          exact ⟨⟨u, role.id⟩, by simp, by simp⟩
        have herr : assignRoleToUser
            { db with userRoles := db.userRoles ++ [⟨u, role.id⟩] } u rn =
              .error "Unique constraint failed on the fields: (userId, roleId)" := by
          unfold assignRoleToUser
          split
          next heq => rw [hfind'] at heq; exact absurd heq (by simp)
          next role1 heq =>
            rw [hfind'] at heq
            injection heq with heq
            subst heq
            split
            next => rfl
            next hcontra => exact absurd hdup' hcontra
        exact ⟨hhas, herr, by
          unfold roleControllerAssignRoleToUser
          rw [herr]⟩

/-- Witness for the amended C3 at concrete inputs: assigning the unknown role
`librarian` fails with not-found, and after assigning `student` to `u1` the
role check is true and the repeated assignment errors. -/
theorem assignRole_spec_witness :
    assignRoleToUser seedDB "u1" "librarian" =
      .error "Role librarian not found" ∧
    userHasRole sampleDB "u1" "student" = true ∧
    assignRoleToUser sampleDB "u1" "student" =
      .error "Unique constraint failed on the fields: (userId, roleId)" :=
  ⟨(assignRole_spec seedDB "u1" "librarian").1 (by decide),
   ((assignRole_spec seedDB "u1" "student").2 sampleDB ⟨"u1", "role-1"⟩
      rfl).1,
   ((assignRole_spec seedDB "u1" "student").2 sampleDB ⟨"u1", "role-1"⟩
      rfl).2.1⟩

/-- C7: `removeRole` and `revokePermission` fail exactly when the named
role/permission is unknown; when the name is known they succeed even if no
assignment/grant exists, repeating the call is safe (no error, same end
state), and membership is false after removal. -/
theorem remove_spec (db : DB) (h : db.wf) (u rn rid pn : String) :
    ((removeRoleFromUser db u rn).isOk = true ↔ ∃ r ∈ db.roles, r.name = rn) ∧
    (∀ db', removeRoleFromUser db u rn = .ok db' →
      removeRoleFromUser db' u rn = .ok db' ∧ userHasRole db' u rn = false) ∧
    ((removePermissionFromRole db rid pn).isOk = true ↔
      ∃ p ∈ db.permissions, p.name = pn) ∧
    (∀ db', removePermissionFromRole db rid pn = .ok db' →
      removePermissionFromRole db' rid pn = .ok db' ∧
      roleHasPermission db' rid pn = false) := by
  obtain ⟨-, hrn, -, hpn, -, -⟩ := h
  refine ⟨?_, ?_, ?_, ?_⟩
  · unfold removeRoleFromUser
    cases hfind : getRoleByName db rn with
    | none =>
      have hnone : ∀ r ∈ db.roles, ¬r.name = rn := by
        have := List.find?_eq_none.mp hfind
        intro r hr hn
        exact absurd (by simpa using this r hr) (by simp [hn])
      simp only [hfind]
      constructor
      · intro hc; exact absurd hc (by simp [Except.isOk, Except.toBool])
      · rintro ⟨r, hr, hn⟩; exact absurd hn (hnone r hr)
    | some role =>
      have hfind2 : db.roles.find? (fun r => r.name == rn) = some role := hfind
      simp only [hfind]
      constructor
      · intro _
        exact ⟨role, List.mem_of_find?_eq_some hfind2,
          by simpa using List.find?_some hfind2⟩
      · intro _; simp [Except.isOk, Except.toBool]
  · intro db' hok
    unfold removeRoleFromUser at hok
    split at hok
    next hfind => exact absurd hok (by simp)
    next role hfind =>
      have hfind2 : db.roles.find? (fun r => r.name == rn) = some role := hfind
      have hrmem : role ∈ db.roles := List.mem_of_find?_eq_some hfind2
      have hrname : role.name = rn := by simpa using List.find?_some hfind2
      rw [Except.ok.injEq] at hok
      subst hok
      constructor
      · unfold removeRoleFromUser
        split
        next heq =>
          have heq2 : getRoleByName db rn = none := heq
          rw [hfind] at heq2
          exact absurd heq2 (by simp)
        next role1 heq =>
          have heq2 : getRoleByName db rn = some role1 := heq
          rw [hfind] at heq2
          injection heq2 with heq2
          subst heq2
          rw [Except.ok.injEq]
          have : (db.userRoles.filter fun ur =>
              !(ur.userId == u && ur.roleId == role.id)).filter
                (fun ur => !(ur.userId == u && ur.roleId == role.id)) =
              db.userRoles.filter fun ur =>
                !(ur.userId == u && ur.roleId == role.id) := by
            rw [List.filter_filter]
            congr 1
            funext a
            rw [Bool.and_self]
          exact congrArg (fun l => { db with userRoles := l }) this
      · rw [Bool.eq_false_iff]
        intro hc
        unfold userHasRole at hc
        rw [List.any_eq_true] at hc
        obtain ⟨ur, hur, hcond⟩ := hc
        rw [Bool.and_eq_true, List.any_eq_true] at hcond
        obtain ⟨huid, r', hr', hcond2⟩ := hcond
        rw [Bool.and_eq_true, beq_iff_eq, beq_iff_eq] at hcond2
        have hflt := List.mem_filter.mp hur
        have hr'role : r' = role :=
          List.inj_on_of_nodup_map hrn hr' hrmem (hcond2.2.trans hrname.symm)
        have : (ur.userId == u && ur.roleId == role.id) = true := by
          rw [Bool.and_eq_true, beq_iff_eq, beq_iff_eq]
          exact ⟨beq_iff_eq.mp huid, by rw [← hr'role, ← hcond2.1]⟩
        rw [this] at hflt
        exact absurd hflt.2 (by simp)
  · unfold removePermissionFromRole
    cases hfind : getPermissionByName db pn with
    | none =>
      have hnone : ∀ p ∈ db.permissions, ¬p.name = pn := by
        have := List.find?_eq_none.mp hfind
        intro p hp hn
        exact absurd (by simpa using this p hp) (by simp [hn])
      simp only [hfind]
      constructor
      · intro hc; exact absurd hc (by simp [Except.isOk, Except.toBool])
      · rintro ⟨p, hp, hn⟩; exact absurd hn (hnone p hp)
    | some permission =>
      have hfind2 : db.permissions.find? (fun p => p.name == pn) =
        some permission := hfind
      simp only [hfind]
      constructor
      · intro _
        exact ⟨permission, List.mem_of_find?_eq_some hfind2,
          by simpa using List.find?_some hfind2⟩
      · intro _; simp [Except.isOk, Except.toBool]
  · intro db' hok
    unfold removePermissionFromRole at hok
    split at hok
    next hfind => exact absurd hok (by simp)
    next permission hfind =>
      have hfind2 : db.permissions.find? (fun p => p.name == pn) =
        some permission := hfind
      have hpmem : permission ∈ db.permissions := List.mem_of_find?_eq_some hfind2
      have hpname : permission.name = pn := by simpa using List.find?_some hfind2
      rw [Except.ok.injEq] at hok
      subst hok
      constructor
      · unfold removePermissionFromRole
        split
        next heq =>
          have heq2 : getPermissionByName db pn = none := heq
          rw [hfind] at heq2
          exact absurd heq2 (by simp)
        next permission1 heq =>
          have heq2 : getPermissionByName db pn = some permission1 := heq
          rw [hfind] at heq2
          injection heq2 with heq2
          subst heq2
          rw [Except.ok.injEq]
          have : (db.rolePermissions.filter fun rp =>
              !(rp.roleId == rid && rp.permissionId == permission.id)).filter
                (fun rp => !(rp.roleId == rid && rp.permissionId == permission.id)) =
              db.rolePermissions.filter fun rp =>
                !(rp.roleId == rid && rp.permissionId == permission.id) := by
            rw [List.filter_filter]
            congr 1
            funext a
            rw [Bool.and_self]
          exact congrArg (fun l => { db with rolePermissions := l }) this
      · rw [Bool.eq_false_iff]
        intro hc
        unfold roleHasPermission at hc
        rw [List.any_eq_true] at hc
        obtain ⟨rp, hrp, hcond⟩ := hc
        rw [Bool.and_eq_true, List.any_eq_true] at hcond
        obtain ⟨hrid, p', hp', hcond2⟩ := hcond
        rw [Bool.and_eq_true, beq_iff_eq, beq_iff_eq] at hcond2
        have hflt := List.mem_filter.mp hrp
        have hp'perm : p' = permission :=
          List.inj_on_of_nodup_map hpn hp' hpmem (hcond2.2.trans hpname.symm)
        have : (rp.roleId == rid && rp.permissionId == permission.id) = true := by
          rw [Bool.and_eq_true, beq_iff_eq, beq_iff_eq]
          exact ⟨beq_iff_eq.mp hrid, by rw [← hp'perm, ← hcond2.1]⟩
        rw [this] at hflt
        exact absurd hflt.2 (by simp)

/-- Witness for C7 at concrete inputs: removing `student` from `u1` succeeds,
and in the resulting store (the seed store) the repeated removal succeeds and
the role check is false. -/
theorem remove_spec_witness :
    (removeRoleFromUser sampleDB "u1" "student").isOk = true ∧
    removeRoleFromUser seedDB "u1" "student" = .ok seedDB ∧
    userHasRole seedDB "u1" "student" = false :=
  ⟨(remove_spec sampleDB (by decide) "u1" "student" "role-1" "COURSE_READ").1.mpr
     ⟨⟨"role-1", "student", none⟩, by decide, rfl⟩,
   ((remove_spec sampleDB (by decide) "u1" "student" "role-1"
       "COURSE_READ").2.1 seedDB rfl).1,
   ((remove_spec sampleDB (by decide) "u1" "student" "role-1"
       "COURSE_READ").2.1 seedDB rfl).2⟩

/-- Every row kept by first-occurrence deduplication comes from the input. -/
theorem mem_of_mem_distinctByAux {α : Type} (key : α → String) :
    ∀ (seen : List String) (l : List α) (x : α),
      x ∈ distinctByAux key seen l → x ∈ l := by
  intro seen l
  induction l generalizing seen with
  | nil => intro x hx; simp [distinctByAux] at hx
  | cons a t ih =>
    intro x hx
    rw [distinctByAux] at hx
    by_cases hc : (seen.contains (key a)) = true
    · rw [if_pos hc] at hx
      exact List.mem_cons_of_mem a (ih seen x hx)
    · rw [if_neg hc] at hx
      rcases List.mem_cons.mp hx with h | h
      · exact h ▸ List.mem_cons_self a t
      · exact List.mem_cons_of_mem a (ih (key a :: seen) x h)

/-- The keys of the deduplicated rows are distinct and avoid the keys
already seen. -/
theorem keys_nodup_distinctByAux {α : Type} (key : α → String) :
    ∀ (seen : List String) (l : List α),
      ((distinctByAux key seen l).map key).Nodup ∧
        ∀ x ∈ distinctByAux key seen l, key x ∉ seen := by
  intro seen l
  induction l generalizing seen with
  | nil => simp [distinctByAux]
  | cons a t ih =>
    rw [distinctByAux]
    by_cases hc : (seen.contains (key a)) = true
    · rw [if_pos hc]
      exact ih seen
    · rw [if_neg hc]
      obtain ⟨ihn, ihs⟩ := ih (key a :: seen)
      refine ⟨?_, ?_⟩
      · rw [List.map_cons, List.nodup_cons]
        refine ⟨?_, ihn⟩
        intro hmem
        rw [List.mem_map] at hmem
        obtain ⟨x, hx, hkx⟩ := hmem
        exact (ihs x hx) (hkx ▸ List.mem_cons_self _ _)
      · intro x hx
        rcases List.mem_cons.mp hx with h | h
        · subst h
          intro hmem
          exact hc ((List.elem_iff).mpr hmem)
        · exact fun hmem => (ihs x h) (List.mem_cons_of_mem _ hmem)

/-- Every input row's key either was already seen or survives in the
deduplicated output. -/
theorem key_covered_distinctByAux {α : Type} (key : α → String) :
    ∀ (seen : List String) (l : List α) (y : α), y ∈ l →
      key y ∈ seen ∨ ∃ x ∈ distinctByAux key seen l, key x = key y := by
  intro seen l
  induction l generalizing seen with
  | nil => intro y hy; simp at hy
  | cons a t ih =>
    intro y hy
    rw [distinctByAux]
    by_cases hc : (seen.contains (key a)) = true
    · rw [if_pos hc]
      rcases List.mem_cons.mp hy with h | h
      · subst h
        exact Or.inl ((List.elem_iff).mp hc)
      · exact ih seen y h
    · rw [if_neg hc]
      rcases List.mem_cons.mp hy with h | h
      · subst h
        exact Or.inr ⟨y, List.mem_cons_self _ _, rfl⟩
      · rcases ih (key a :: seen) y h with hseen | ⟨x, hx, hkx⟩
        · rcases List.mem_cons.mp hseen with heq | hseen'
          · exact Or.inr ⟨a, List.mem_cons_self _ _, heq.symm⟩
          · exact Or.inl hseen'
        · exact Or.inr ⟨x, List.mem_cons_of_mem _ hx, hkx⟩

/-- Mapping the joined rows of a key-distinct list through an
injective-on-keys join keeps the mapped keys distinct. -/
theorem nodup_map_filterMap {α β : Type} (f : α → Option β) (g : β → String)
    (key : α → String) (hfg : ∀ a b, f a = some b → g b = key a) :
    ∀ l : List α, (l.map key).Nodup → ((l.filterMap f).map g).Nodup := by
  intro l
  induction l with
  | nil => simp
  | cons a t ih =>
    intro hnd
    rw [List.map_cons, List.nodup_cons] at hnd
    rw [List.filterMap_cons]
    cases hfa : f a with
    | none => exact ih hnd.2
    | some b =>
      rw [List.map_cons, List.nodup_cons]
      refine ⟨?_, ih hnd.2⟩
      intro hmem
      rw [List.mem_map] at hmem
      obtain ⟨b', hb', hgb⟩ := hmem
      rw [List.mem_filterMap] at hb'
      obtain ⟨a', ha', hfa'⟩ := hb'
      refine hnd.1 ?_
      rw [List.mem_map]
      exact ⟨a', ha', by rw [← hfg a' b' hfa', hgb, hfg a b hfa]⟩

/-- Membership in `getUserPermissions`: exactly the catalog permissions whose
id is granted to some role the principal holds. -/
theorem mem_getUserPermissions (db : DB)
    (hids : (db.permissions.map Permission.id).Nodup) (u : String)
    (p : Permission) :
    p ∈ getUserPermissions db u ↔
      p ∈ db.permissions ∧ ∃ rp ∈ db.rolePermissions,
        roleHasSomeUser db u rp.roleId = true ∧ rp.permissionId = p.id := by
  unfold getUserPermissions distinctBy
  rw [List.mem_filterMap]
  constructor
  · rintro ⟨rp, hrp, hfind⟩
    have hpmem := List.mem_of_find?_eq_some hfind
    have hpid : p.id = rp.permissionId := by
      simpa using List.find?_some hfind
    have hrp2 := mem_of_mem_distinctByAux _ _ _ _ hrp
    have hflt := List.mem_filter.mp hrp2
    exact ⟨hpmem, rp, hflt.1, hflt.2, hpid.symm⟩
  · rintro ⟨hpmem, rp, hrp, hrole, hpid⟩
    have hrpf : rp ∈ db.rolePermissions.filter
        (fun rp => roleHasSomeUser db u rp.roleId) :=
      List.mem_filter.mpr ⟨hrp, hrole⟩
    rcases key_covered_distinctByAux (fun rp => rp.permissionId) [] _ rp hrpf with
      hseen | ⟨rp', hrp', hkey⟩
    · simp at hseen
    · refine ⟨rp', hrp', ?_⟩
      cases hfq : db.permissions.find? (fun p' => p'.id == rp'.permissionId) with
      | none =>
        exfalso
        have := List.find?_eq_none.mp hfq p hpmem
        exact absurd (by simp [hpid, hkey] : (p.id == rp'.permissionId) = true)
          this
      | some q =>
        have hqmem := List.mem_of_find?_eq_some hfq
        have hqid : q.id = rp'.permissionId := by
          simpa using List.find?_some hfq
        have hqp : q = p :=
          List.inj_on_of_nodup_map hids hqmem hpmem
            (by rw [hqid, hkey, hpid])
        rw [hqp]

/-- C1: the effective permission set of a principal is exactly the union,
over every role the principal holds, of the permissions granted to that
role, with each permission id appearing at most once. -/
theorem getUserPermissions_spec (db : DB) (h : db.wf) (u : String) :
    (∀ p : Permission, p ∈ getUserPermissions db u ↔
      p ∈ db.permissions ∧ ∃ r ∈ db.roles,
        (∃ ur ∈ db.userRoles, ur.userId = u ∧ ur.roleId = r.id) ∧
        ∃ rp ∈ db.rolePermissions, rp.roleId = r.id ∧ rp.permissionId = p.id) ∧
    ((getUserPermissions db u).map Permission.id).Nodup := by
  obtain ⟨-, -, hids, -, -, -⟩ := h
  constructor
  · intro p
    rw [mem_getUserPermissions db hids u p]
    constructor
    · rintro ⟨hpmem, rp, hrp, hrole, hpid⟩
      unfold roleHasSomeUser at hrole
      rw [List.any_eq_true] at hrole
      obtain ⟨r, hr, hcond⟩ := hrole
      rw [Bool.and_eq_true, beq_iff_eq, List.any_eq_true] at hcond
      obtain ⟨hrid, ur, hur, hcond2⟩ := hcond
      rw [Bool.and_eq_true, beq_iff_eq, beq_iff_eq] at hcond2
      exact ⟨hpmem, r, hr, ⟨ur, hur, hcond2.2, hcond2.1⟩,
        rp, hrp, hrid.symm, hpid⟩
    · rintro ⟨hpmem, r, hr, ⟨ur, hur, huid, hurid⟩, rp, hrp, hrpid, hpid⟩
      refine ⟨hpmem, rp, hrp, ?_, hpid⟩
      unfold roleHasSomeUser
      rw [List.any_eq_true]
      refine ⟨r, hr, ?_⟩
      rw [Bool.and_eq_true, beq_iff_eq, List.any_eq_true]
      exact ⟨hrpid.symm, ur, hur, by simp [hurid, huid]⟩
  · unfold getUserPermissions distinctBy
    exact nodup_map_filterMap _ _ (fun rp => rp.permissionId)
      (fun a b hab => by simpa using List.find?_some hab)
      _ (keys_nodup_distinctByAux _ [] _).1

/-- Witness for C1: in the sample store, `COURSE_READ` is in `u1`'s effective
permission set and is granted through the held role `student`. -/
theorem getUserPermissions_spec_witness :
    ⟨"perm-1", "COURSE_READ", none⟩ ∈ sampleDB.permissions ∧
      ∃ r ∈ sampleDB.roles,
        (∃ ur ∈ sampleDB.userRoles, ur.userId = "u1" ∧ ur.roleId = r.id) ∧
        ∃ rp ∈ sampleDB.rolePermissions, rp.roleId = r.id ∧
          rp.permissionId = Permission.id ⟨"perm-1", "COURSE_READ", none⟩ :=
  ((getUserPermissions_spec sampleDB (by decide) "u1").1
    ⟨"perm-1", "COURSE_READ", none⟩).mp (by decide)

/-- C9: the direct membership query `userHasPermission` agrees with
membership in the derived full set `getUserPermissions` on every store. -/
theorem userHasPermission_agrees (db : DB) (h : db.wf) (u n : String) :
    userHasPermission db u n = true ↔
      ∃ p ∈ getUserPermissions db u, p.name = n := by
  obtain ⟨-, -, hids, -, -, -⟩ := h
  constructor
  · intro hc
    unfold userHasPermission at hc
    rw [List.any_eq_true] at hc
    obtain ⟨rp, hrp, hcond⟩ := hc
    rw [Bool.and_eq_true, List.any_eq_true] at hcond
    obtain ⟨hrole, p, hp, hcond2⟩ := hcond
    rw [Bool.and_eq_true, beq_iff_eq, beq_iff_eq] at hcond2
    exact ⟨p, (mem_getUserPermissions db hids u p).mpr
      ⟨hp, rp, hrp, hrole, hcond2.1.symm⟩, hcond2.2⟩
  · rintro ⟨p, hp, hname⟩
    obtain ⟨hpmem, rp, hrp, hrole, hpid⟩ :=
      (mem_getUserPermissions db hids u p).mp hp
    unfold userHasPermission
    rw [List.any_eq_true]
    refine ⟨rp, hrp, ?_⟩
    rw [Bool.and_eq_true, List.any_eq_true]
    exact ⟨hrole, p, hpmem, by simp [hpid, hname]⟩

/-- Witness for C9: `u1` holds `COURSE_READ`, so the full set contains a
permission of that name. -/
theorem userHasPermission_agrees_witness :
    ∃ p ∈ getUserPermissions sampleDB "u1", p.name = "COURSE_READ" :=
  (userHasPermission_agrees sampleDB (by decide) "u1" "COURSE_READ").mp
    (by decide)

end EduBackend
